import Mathlib

/-!
Verification development for the PolyOMB volatility market-maker skill
(`PolyOMB_Skills/00002_volatility_market_maker`).

Numeric model: Python floats are modelled as exact rationals (ℚ); values that
the Python code produces through transcendental functions (`np.log`,
`np.sqrt`) are modelled in ℝ.  Python `float('nan')` outcomes are modelled
with `Option` (`none` = NaN).  Python exceptions are modelled with
`Except String`.

Sources embedded here:
- `order_pricing.py` (`round_to_tick_size`, `get_order_prices`)
- `volatility_calc.py` (`calculate_volatility`, `should_pause_trading`)
- `backtest_engine.py` (strategy, engine, sharpe, max drawdown)
- `tests/backtest_engine.py` (the second engine implementation shipped in the
  repository, with input validation and annualised sharpe)
- `risk_management.py` (`comprehensive_risk_check`, `RiskLevel`)
- `market_data_loader.py` (`MarketDataLoader.get_market_trades`)
-/

/-- Python `round` (banker's rounding, round-half-to-even) on an exact
rational.  Away from exact halves it agrees with ordinary rounding. -/
def pyRound (q : ℚ) : ℤ :=
  if Int.fract q = 1 / 2 then (if Even ⌊q⌋ then ⌊q⌋ else ⌊q⌋ + 1) else round q

/-- `order_pricing.round_to_tick_size` (order_pricing.py lines 11-26):
`if tick_size <= 0: return price` then `round(price / tick_size) * tick_size`. -/
def round_to_tick_size (price tick_size : ℚ) : ℚ :=
  if tick_size ≤ 0 then price else (pyRound (price / tick_size) : ℚ) * tick_size

/-- Python `d.get(key, default) or default`: a missing key or a stored
falsy value (`None` / `0.0`) both yield the default. -/
def pyGetOr (v : Option ℚ) (d : ℚ) : ℚ :=
  match v with
  | none => d
  | some x => if x = 0 then d else x

/-- The order-book dictionary consumed by `get_order_prices`.  `none` models
an absent key (or a stored `None`). -/
structure OrderBook where
  best_bid : Option ℚ := none
  best_ask : Option ℚ := none
  best_bid_size : Option ℚ := none
  best_ask_size : Option ℚ := none
  bid_sum_within_n_percent : Option ℚ := none
  ask_sum_within_n_percent : Option ℚ := none

/-- Lines 57-69 of order_pricing.py: fetch `best_bid`/`best_ask` (missing or
falsy → 0.0) and synthesize missing sides: both missing → (0.49, 0.51), one
missing → the other ∓/± 0.02. -/
def bookSides (ob : OrderBook) : ℚ × ℚ :=
  let best_bid := pyGetOr ob.best_bid 0
  let best_ask := pyGetOr ob.best_ask 0
  if best_bid = 0 ∧ best_ask = 0 then (49 / 100, 51 / 100)
  else if best_bid = 0 then (best_ask - 2 / 100, best_ask)
  else if best_ask = 0 then (best_bid, best_bid + 2 / 100)
  else (best_bid, best_ask)

/-- Lines 74-98 of order_pricing.py: base spread 0.02 scaled by the depth
factor derived from `bid_sum_within_n_percent` / `ask_sum_within_n_percent`
(default 1000 each), then clamped to [0.01, 0.05]. -/
def depthSpread (ob : OrderBook) : ℚ :=
  let bid_sum := pyGetOr ob.bid_sum_within_n_percent 1000
  let ask_sum := pyGetOr ob.ask_sum_within_n_percent 1000
  let avg_depth := (bid_sum + ask_sum) / 2
  let depth_factor : ℚ :=
    if avg_depth > 5000 then 8 / 10
    else if avg_depth > 2000 then 9 / 10
    else if avg_depth > 500 then 1
    else 12 / 10
  let spread := (2 / 100) * depth_factor
  max (1 / 100) (min spread (5 / 100))

/-- Lines 100-127 of order_pricing.py, bid half before tick rounding:
`bid = mid - spread/2`, pulled below `best_bid - tick_size`, then capped
from above when holding a short position (`position_size < 0`). -/
def preRoundBid (ob : OrderBook) (avg_price tick_size position_size : ℚ) : ℚ :=
  let bb := (bookSides ob).1
  let ba := (bookSides ob).2
  let mid_price := (bb + ba) / 2
  let spread := depthSpread ob
  let bid := min (mid_price - spread / 2) (bb - tick_size)
  if position_size < 0 ∧ avg_price > 0 then
    min bid (min (avg_price * (103 / 100)) (max bb (avg_price * (97 / 100))))
  else bid

/-- Lines 100-118 of order_pricing.py, ask half before tick rounding:
`ask = mid + spread/2`, pushed above `best_ask + tick_size`, then floored
when holding a long position (`position_size > 0`). -/
def preRoundAsk (ob : OrderBook) (avg_price tick_size position_size : ℚ) : ℚ :=
  let bb := (bookSides ob).1
  let ba := (bookSides ob).2
  let mid_price := (bb + ba) / 2
  let spread := depthSpread ob
  let ask := max (mid_price + spread / 2) (ba + tick_size)
  if position_size > 0 ∧ avg_price > 0 then
    max ask (max (avg_price * (97 / 100)) (min ba (avg_price * (103 / 100))))
  else ask

/-- `order_pricing.get_order_prices` (order_pricing.py lines 29-143); the
`row` argument is represented by the `tick_size` it carries (line 54).
After tick rounding, a collapsed book (`bid >= ask`, lines 134-137) is
re-derived from the mid price, and both quotes are clamped to
[0.01, 0.99] (lines 140-141). -/
def get_order_prices (ob : OrderBook) (avg_price tick_size position_size : ℚ) :
    ℚ × ℚ :=
  let bid := round_to_tick_size (preRoundBid ob avg_price tick_size position_size) tick_size
  let ask := round_to_tick_size (preRoundAsk ob avg_price tick_size position_size) tick_size
  let bb := (bookSides ob).1
  let ba := (bookSides ob).2
  let mid_price := (bb + ba) / 2
  let spread := depthSpread ob
  let p :=
    if bid ≥ ask then
      let ask2 := round_to_tick_size (mid_price + spread / 2) tick_size
      (round_to_tick_size (ask2 - spread) tick_size, ask2)
    else (bid, ask)
  (max (1 / 100) (min p.1 (99 / 100)), max (1 / 100) (min p.2 (99 / 100)))

theorem pyRound_le (q : ℚ) : (pyRound q : ℚ) ≤ q + 1 / 2 := by
  unfold pyRound
  split
  · rename_i h
    have hfract : q - (⌊q⌋ : ℚ) = Int.fract q := Int.self_sub_floor q
    split <;> push_cast <;> nlinarith [h, hfract]
  · have h2 : |q - (round q : ℚ)| ≤ 1 / 2 := abs_sub_round q
    have := abs_le.mp h2
    linarith [this.1]

theorem le_pyRound (q : ℚ) : q - 1 / 2 ≤ (pyRound q : ℚ) := by
  unfold pyRound
  split
  · rename_i h
    have hfract : q - (⌊q⌋ : ℚ) = Int.fract q := Int.self_sub_floor q
    split <;> push_cast <;> nlinarith [h, hfract]
  · have h2 : |q - (round q : ℚ)| ≤ 1 / 2 := abs_sub_round q
    have := abs_le.mp h2
    linarith [this.2]

theorem pyRound_intCast (n : ℤ) : pyRound (n : ℚ) = n := by
  unfold pyRound
  have h1 : Int.fract (n : ℚ) = 0 := Int.fract_intCast n
  rw [h1]
  norm_num

/-- Lower and upper tick-rounding bounds: for a positive tick the rounded
price moves by at most half a tick. -/
theorem round_to_tick_size_bounds (x t : ℚ) (ht : 0 < t) :
    x - t / 2 ≤ round_to_tick_size x t ∧ round_to_tick_size x t ≤ x + t / 2 := by
  unfold round_to_tick_size
  rw [if_neg (not_le.mpr ht)]
  constructor
  · have h := le_pyRound (x / t)
    have := mul_le_mul_of_nonneg_right h (le_of_lt ht)
    calc x - t / 2 = (x / t - 1 / 2) * t := by field_simp; ring
    _ ≤ (pyRound (x / t) : ℚ) * t := this
  · have h := pyRound_le (x / t)
    have := mul_le_mul_of_nonneg_right h (le_of_lt ht)
    calc (pyRound (x / t) : ℚ) * t ≤ (x / t + 1 / 2) * t := this
    _ = x + t / 2 := by field_simp; ring

/-- The output of `round_to_tick_size` with a positive tick is an integer
multiple of the tick. -/
theorem round_to_tick_size_multiple (x t : ℚ) (ht : 0 < t) :
    ∃ k : ℤ, round_to_tick_size x t = (k : ℚ) * t := by
  refine ⟨pyRound (x / t), ?_⟩
  unfold round_to_tick_size
  rw [if_neg (not_le.mpr ht)]

/-- C8: for every price `x` and tick size `t > 0`, `round_to_tick_size` is
idempotent, and its result is an exact integer multiple of `t` (exact in the
rational model, i.e. within floating tolerance). -/
theorem round_to_tick_idempotent_and_aligned (x t : ℚ) (ht : 0 < t) :
    round_to_tick_size (round_to_tick_size x t) t = round_to_tick_size x t ∧
      ∃ k : ℤ, round_to_tick_size x t = (k : ℚ) * t := by
  obtain ⟨k, hk⟩ := round_to_tick_size_multiple x t ht
  refine ⟨?_, ⟨k, hk⟩⟩
  rw [hk]
  unfold round_to_tick_size
  rw [if_neg (not_le.mpr ht)]
  have ht0 : t ≠ 0 := ne_of_gt ht
  have : (k : ℚ) * t / t = (k : ℚ) := by field_simp
  rw [this, pyRound_intCast]

/-- Witness for C8 at `x = 1/3`, `t = 1/100`. -/
theorem round_to_tick_idempotent_and_aligned_witness :
    (0 : ℚ) < 1 / 100 ∧
      (round_to_tick_size (round_to_tick_size (1 / 3) (1 / 100)) (1 / 100) =
          round_to_tick_size (1 / 3) (1 / 100) ∧
        ∃ k : ℤ, round_to_tick_size (1 / 3) (1 / 100) = (k : ℚ) * (1 / 100)) :=
  ⟨by norm_num, round_to_tick_idempotent_and_aligned (1 / 3) (1 / 100) (by norm_num)⟩

/-- Validity of the effective book sides: if each provided (nonzero) side
lies in [0.01, 0.99] and the sides are not crossed, then after the
missing-side synthesis of lines 63-69 the effective bid is below the
effective ask, the bid is at most 0.99 and the ask at least 0.01. -/
theorem bookSides_valid (ob : OrderBook)
    (hbb : pyGetOr ob.best_bid 0 = 0 ∨
      (1 / 100 ≤ pyGetOr ob.best_bid 0 ∧ pyGetOr ob.best_bid 0 ≤ 99 / 100))
    (hba : pyGetOr ob.best_ask 0 = 0 ∨
      (1 / 100 ≤ pyGetOr ob.best_ask 0 ∧ pyGetOr ob.best_ask 0 ≤ 99 / 100))
    (hcross : pyGetOr ob.best_bid 0 ≠ 0 → pyGetOr ob.best_ask 0 ≠ 0 →
      pyGetOr ob.best_bid 0 < pyGetOr ob.best_ask 0) :
    (bookSides ob).1 < (bookSides ob).2 ∧ (bookSides ob).1 ≤ 99 / 100 ∧
      1 / 100 ≤ (bookSides ob).2 := by
  unfold bookSides
  by_cases h1 : pyGetOr ob.best_bid 0 = 0 ∧ pyGetOr ob.best_ask 0 = 0
  · rw [if_pos h1]
    norm_num
  · rw [if_neg h1]
    by_cases h2 : pyGetOr ob.best_bid 0 = 0
    · rw [if_pos h2]
      have ha0 : pyGetOr ob.best_ask 0 ≠ 0 := fun h => h1 ⟨h2, h⟩
      rcases hba with h | h
      · exact absurd h ha0
      · exact ⟨by simp only; linarith, by simp only; linarith, by simp only; linarith⟩
    · rw [if_neg h2]
      by_cases h3 : pyGetOr ob.best_ask 0 = 0
      · rw [if_pos h3]
        rcases hbb with h | h
        · exact absurd h h2
        · exact ⟨by simp only; linarith, by simp only; linarith, by simp only; linarith⟩
      · rw [if_neg h3]
        rcases hbb with h | hB
        · exact absurd h h2
        rcases hba with h | hA
        · exact absurd h h3
        exact ⟨hcross h2 h3, hB.2, hA.1⟩

/-- The pre-rounding bid never exceeds the effective best bid minus one
tick (line 106; the short-position cap of lines 121-127 only lowers it). -/
theorem preRoundBid_le (ob : OrderBook) (avg t pos : ℚ) :
    preRoundBid ob avg t pos ≤ (bookSides ob).1 - t := by
  unfold preRoundBid
  split
  · exact le_trans (min_le_left _ _) (min_le_right _ _)
  · exact min_le_right _ _

/-- The pre-rounding ask never drops below the effective best ask plus one
tick (line 107; the long-position floor of lines 110-118 only raises it). -/
theorem le_preRoundAsk (ob : OrderBook) (avg t pos : ℚ) :
    (bookSides ob).2 + t ≤ preRoundAsk ob avg t pos := by
  unfold preRoundAsk
  split
  · exact le_trans (le_max_right _ _) (le_max_left _ _)
  · exact le_max_right _ _

theorem tick_multiple_min {t x y : ℚ} (hx : ∃ i : ℤ, x = (i : ℚ) * t)
    (hy : ∃ j : ℤ, y = (j : ℚ) * t) : ∃ k : ℤ, min x y = (k : ℚ) * t := by
  rcases le_total x y with h | h
  · rw [min_eq_left h]; exact hx
  · rw [min_eq_right h]; exact hy

theorem tick_multiple_max {t x y : ℚ} (hx : ∃ i : ℤ, x = (i : ℚ) * t)
    (hy : ∃ j : ℤ, y = (j : ℚ) * t) : ∃ k : ℤ, max x y = (k : ℚ) * t := by
  rcases le_total x y with h | h
  · rw [max_eq_right h]; exact hy
  · rw [max_eq_left h]; exact hx

/-- C1 (amended): for every order book whose provided (nonzero) sides lie
in [0.01, 0.99] and are not crossed, every `avg_price` and `position_size`,
and every `tick_size > 0` of which 0.01 is an exact integer multiple,
`get_order_prices` returns `bid < ask`, both prices in [0.01, 0.99], and
both exact integer multiples of `tick_size` (exact in the rational model,
i.e. within floating tolerance). -/
theorem get_order_prices_amended (ob : OrderBook) (avg t pos : ℚ)
    (ht : 0 < t) (htick : ∃ n : ℤ, (1 : ℚ) / 100 = (n : ℚ) * t)
    (hbb : pyGetOr ob.best_bid 0 = 0 ∨
      (1 / 100 ≤ pyGetOr ob.best_bid 0 ∧ pyGetOr ob.best_bid 0 ≤ 99 / 100))
    (hba : pyGetOr ob.best_ask 0 = 0 ∨
      (1 / 100 ≤ pyGetOr ob.best_ask 0 ∧ pyGetOr ob.best_ask 0 ≤ 99 / 100))
    (hcross : pyGetOr ob.best_bid 0 ≠ 0 → pyGetOr ob.best_ask 0 ≠ 0 →
      pyGetOr ob.best_bid 0 < pyGetOr ob.best_ask 0) :
    (get_order_prices ob avg t pos).1 < (get_order_prices ob avg t pos).2 ∧
      (1 / 100 ≤ (get_order_prices ob avg t pos).1 ∧
        (get_order_prices ob avg t pos).1 ≤ 99 / 100) ∧
      (1 / 100 ≤ (get_order_prices ob avg t pos).2 ∧
        (get_order_prices ob avg t pos).2 ≤ 99 / 100) ∧
      (∃ i : ℤ, (get_order_prices ob avg t pos).1 = (i : ℚ) * t) ∧
      (∃ j : ℤ, (get_order_prices ob avg t pos).2 = (j : ℚ) * t) := by
  obtain ⟨hBA, hBle, hAge⟩ := bookSides_valid ob hbb hba hcross
  have hpb : preRoundBid ob avg t pos ≤ (bookSides ob).1 - t := preRoundBid_le ob avg t pos
  have hpa : (bookSides ob).2 + t ≤ preRoundAsk ob avg t pos := le_preRoundAsk ob avg t pos
  have hb1 : round_to_tick_size (preRoundBid ob avg t pos) t ≤ preRoundBid ob avg t pos + t / 2 :=
    (round_to_tick_size_bounds _ t ht).2
  have ha1 : preRoundAsk ob avg t pos - t / 2 ≤ round_to_tick_size (preRoundAsk ob avg t pos) t :=
    (round_to_tick_size_bounds _ t ht).1
  have hrb_lt : round_to_tick_size (preRoundBid ob avg t pos) t <
      round_to_tick_size (preRoundAsk ob avg t pos) t := by linarith
  have hnot : ¬ (round_to_tick_size (preRoundBid ob avg t pos) t ≥
      round_to_tick_size (preRoundAsk ob avg t pos) t) := not_le.mpr hrb_lt
  have hgop : get_order_prices ob avg t pos =
      (max (1 / 100) (min (round_to_tick_size (preRoundBid ob avg t pos) t) (99 / 100)),
        max (1 / 100) (min (round_to_tick_size (preRoundAsk ob avg t pos) t) (99 / 100))) := by
    simp only [get_order_prices]
    rw [if_neg hnot]
  rw [hgop]
  obtain ⟨n, hn⟩ := htick
  have hmb : ∃ i : ℤ, round_to_tick_size (preRoundBid ob avg t pos) t = (i : ℚ) * t :=
    round_to_tick_size_multiple _ t ht
  have hma : ∃ j : ℤ, round_to_tick_size (preRoundAsk ob avg t pos) t = (j : ℚ) * t :=
    round_to_tick_size_multiple _ t ht
  have h001 : ∃ k : ℤ, (1 : ℚ) / 100 = (k : ℚ) * t := ⟨n, hn⟩
  have h099 : ∃ k : ℤ, (99 : ℚ) / 100 = (k : ℚ) * t := by
    refine ⟨99 * n, ?_⟩
    push_cast
    have : (99 : ℚ) / 100 = 99 * ((1 : ℚ) / 100) := by ring
    rw [this, hn]; ring
  refine ⟨?_, ⟨le_max_left _ _, max_le (by norm_num) (min_le_right _ _)⟩,
    ⟨le_max_left _ _, max_le (by norm_num) (min_le_right _ _)⟩,
    tick_multiple_max h001 (tick_multiple_min hmb h099),
    tick_multiple_max h001 (tick_multiple_min hma h099)⟩
  have hrble : round_to_tick_size (preRoundBid ob avg t pos) t < 99 / 100 := by linarith
  have hrage : 1 / 100 < round_to_tick_size (preRoundAsk ob avg t pos) t := by linarith
  have hbid : min (round_to_tick_size (preRoundBid ob avg t pos) t) (99 / 100) =
      round_to_tick_size (preRoundBid ob avg t pos) t := min_eq_left (le_of_lt hrble)
  have hask : max (1 / 100) (min (round_to_tick_size (preRoundAsk ob avg t pos) t) (99 / 100)) =
      min (round_to_tick_size (preRoundAsk ob avg t pos) t) (99 / 100) :=
    max_eq_right (le_of_lt (lt_min hrage (by norm_num)))
  rw [hbid, hask]
  exact max_lt (lt_min hrage (by norm_num)) (lt_min hrb_lt hrble)

/-- C1 counterexample: for the valid order book with `best_bid = 0.96`,
`best_ask = 0.98` and `tick_size = 0.02 > 0`, the returned ask is the clamp
bound 0.99, which is not an integer multiple of the tick size, so the
claimed universal tick alignment fails. -/
theorem get_order_prices_counterexample :
    get_order_prices ⟨some (96 / 100), some (98 / 100), none, none, none, none⟩
        0 (2 / 100) 0 = (94 / 100, 99 / 100) ∧
      (0 : ℚ) < 2 / 100 ∧
      ¬ ∃ k : ℤ, (99 / 100 : ℚ) = (k : ℚ) * (2 / 100) := by
  refine ⟨?_, by norm_num, ?_⟩
  · rw [get_order_prices, preRoundBid, preRoundAsk]
    norm_num [bookSides, depthSpread, pyGetOr, round_to_tick_size, pyRound, Int.fract,
      round_eq]
  · rintro ⟨k, hk⟩
    have h99 : (99 : ℚ) = 2 * (k : ℚ) := by linarith
    have h99z : (99 : ℤ) = 2 * k := by exact_mod_cast h99
    omega

/-- Witness for the amended C1 at the book (0.40, 0.44) with tick 0.01. -/
theorem get_order_prices_amended_witness :
    (0 : ℚ) < 1 / 100 ∧
      ((get_order_prices ⟨some (40 / 100), some (44 / 100), none, none, none, none⟩
            0 (1 / 100) 0).1 <
          (get_order_prices ⟨some (40 / 100), some (44 / 100), none, none, none, none⟩
            0 (1 / 100) 0).2 ∧
        (1 / 100 ≤ (get_order_prices ⟨some (40 / 100), some (44 / 100), none, none, none,
              none⟩ 0 (1 / 100) 0).1 ∧
          (get_order_prices ⟨some (40 / 100), some (44 / 100), none, none, none, none⟩
              0 (1 / 100) 0).1 ≤ 99 / 100) ∧
        (1 / 100 ≤ (get_order_prices ⟨some (40 / 100), some (44 / 100), none, none, none,
              none⟩ 0 (1 / 100) 0).2 ∧
          (get_order_prices ⟨some (40 / 100), some (44 / 100), none, none, none, none⟩
              0 (1 / 100) 0).2 ≤ 99 / 100) ∧
        (∃ i : ℤ, (get_order_prices ⟨some (40 / 100), some (44 / 100), none, none, none,
            none⟩ 0 (1 / 100) 0).1 = (i : ℚ) * (1 / 100)) ∧
        (∃ j : ℤ, (get_order_prices ⟨some (40 / 100), some (44 / 100), none, none, none,
            none⟩ 0 (1 / 100) 0).2 = (j : ℚ) * (1 / 100))) :=
  ⟨by norm_num,
    get_order_prices_amended _ 0 (1 / 100) 0 (by norm_num) ⟨1, by norm_num⟩
      (by norm_num [pyGetOr]) (by norm_num [pyGetOr])
      (fun _ _ => by norm_num [pyGetOr])⟩

/-- Arithmetic mean of a list (pandas `Series.mean` without NaN entries). -/
def listMean (xs : List ℚ) : ℚ := xs.sum / (xs.length : ℚ)

/-- Sample variance with `ddof = 1` (square of pandas `Series.std`);
division by zero in ℚ yields 0, callers guard the degenerate lengths. -/
def sampleVar (xs : List ℚ) : ℚ :=
  (xs.map (fun x => (x - listMean xs) ^ 2)).sum / ((xs.length : ℚ) - 1)

/-- Cumulative sums (pandas `Series.cumsum`), accumulator form. -/
def cumsumAux (acc : ℚ) : List ℚ → List ℚ
  | [] => []
  | x :: xs => (acc + x) :: cumsumAux (acc + x) xs

/-- Cumulative sums (pandas `Series.cumsum`). -/
def cumsum (xs : List ℚ) : List ℚ := cumsumAux 0 xs

/-- Running maxima (pandas `Series.cummax` / `expanding().max()`),
accumulator form. -/
def runningMaxAux (m : ℚ) : List ℚ → List ℚ
  | [] => []
  | x :: xs => max m x :: runningMaxAux (max m x) xs

/-- Running maxima (pandas `Series.cummax` / `expanding().max()`). -/
def runningMax : List ℚ → List ℚ
  | [] => []
  | x :: xs => x :: runningMaxAux x xs

/-- Minimum of a list (pandas `Series.min`; callers only use it on
non-empty lists, the empty case is unreachable there). -/
def listMin : List ℚ → ℚ
  | [] => 0
  | x :: xs => xs.foldl min x

/-- Maximum of a list (used to state prefix maxima in the spec-side
drawdown formula). -/
def listMax : List ℚ → ℚ
  | [] => 0
  | x :: xs => xs.foldl max x

/-- First differences (pandas `Series.diff().dropna()`). -/
def diffs : List ℚ → List ℚ
  | [] => []
  | x :: xs => List.zipWith (fun a b => b - a) (x :: xs) xs

/-- The trading-signal enum of both backtest modules
(backtest_engine.py lines 15-19). -/
inductive Signal
  | BUY
  | SELL
  | HOLD
deriving DecidableEq

/-- A market-data row as consumed by the strategies: `price` (default 0.5),
the `3_hour` volatility column (here `vol_3_hour`; `none` models a missing
key or NaN) and a timestamp (time values as rationals). -/
structure MarketRow where
  price : Option ℚ := none
  vol_3_hour : Option ℚ := none
  timestamp : Option ℚ := none
deriving DecidableEq

/-- Strategy configuration dictionary; `none` models a missing key, read
through the `config.get(key, default)` defaults at each use site. -/
structure StrategyConfig where
  volatility_threshold : Option ℚ := none
  max_position_size : Option ℚ := none
  trade_size : Option ℚ := none
deriving DecidableEq

/-- `risk_management.is_in_risk_off_period` (risk_management.py lines
227-240): `datetime.now() < sleep_until`, with `now` made explicit. -/
def is_in_risk_off_period (sleep_until : Option ℚ) (now : ℚ) : Bool :=
  match sleep_until with
  | none => false
  | some u => decide (now < u)

/-- `risk_management.should_pause_trading` (risk_management.py lines
100-122): NaN/None volatility does not pause, otherwise pause iff
`volatility >= threshold`. -/
def should_pause_trading (volatility : Option ℚ) (threshold : ℚ) : Bool :=
  match volatility with
  | none => false
  | some v => decide (v ≥ threshold)

/-- `VolatilityMarketMakerStrategy.generate_signal` (backtest_engine.py
lines 117-147): volatility from the `3_hour` column (missing/NaN → 0),
threshold from the config (default 0.15); HOLD during a risk-off period,
HOLD on high volatility, and HOLD in the final catch-all return. -/
def generate_signal (config : StrategyConfig) (risk_off_until : Option ℚ)
    (now : ℚ) (row : MarketRow) : Signal :=
  let volatility : ℚ := (row.vol_3_hour).getD 0
  let threshold := (config.volatility_threshold).getD (15 / 100)
  if risk_off_until.isSome && is_in_risk_off_period risk_off_until now then Signal.HOLD
  else if should_pause_trading (some volatility) threshold then Signal.HOLD
  else Signal.HOLD

/-- A `Trade` record of the top-level engine (backtest_engine.py lines
22-31); only the `pnl` field feeds the statistics. -/
structure SrcTrade where
  timestamp : Option ℚ := none
  action : String := ""
  size : ℚ := 0
  price : ℚ := 0
  pnl : Option ℚ := none
  position_after : ℚ := 0
  fee : ℚ := 0
deriving DecidableEq

/-- `calculate_sharpe_ratio` of the top-level module (backtest_engine.py
lines 315-340): 0 for fewer than 2 observations or zero variance, else
`(mean - risk_free_rate) / std` with NO annualisation factor.  The code
compares `returns.std() == 0`; with no NaN entries that is equivalent to
zero sample variance. -/
noncomputable def calculate_sharpe_ratio (returns : List ℚ) (risk_free_rate : ℚ) : ℝ :=
  if returns.length < 2 then 0
  else if sampleVar returns = 0 then 0
  else ((listMean returns : ℝ) - (risk_free_rate : ℝ)) / Real.sqrt ((sampleVar returns : ℚ) : ℝ)

/-- `calculate_max_drawdown` of the top-level module (backtest_engine.py
lines 343-372): cumulative-sum the per-step PnL input, then return the most
negative PERCENTAGE drawdown relative to the running maximum, counting 0 at
indices whose running maximum is not positive. -/
def calculate_max_drawdown (pnl_series : List ℚ) : ℚ :=
  if pnl_series = [] then 0
  else
    let cumulative := cumsum pnl_series
    let running := runningMax cumulative
    listMin (List.zipWith (fun c m => if m > 0 then (c - m) / m * 100 else 0) cumulative running)

/-- The per-step executed PnL of `BacktestEngine.step` (backtest_engine.py
lines 236-271): BUY is a `pass`, SELL books `(price - avg_price) * position`
for a positive long position, HOLD books nothing. -/
def step_pnl (position avg_price : ℚ) (sig : Signal) (price : ℚ) : ℚ :=
  match sig with
  | Signal.BUY => 0
  | Signal.SELL => if position > 0 ∧ avg_price > 0 then (price - avg_price) * position else 0
  | Signal.HOLD => 0

/-- `BacktestResult` of the top-level module (backtest_engine.py lines
34-48), without the start/end dates (not touched by any claim). -/
structure BacktestResult where
  trades : List SrcTrade
  pnl_series : List ℚ
  total_pnl : ℚ
  total_return_pct : ℚ
  sharpe_ratio : ℝ
  max_drawdown_pct : ℚ
  win_rate : ℚ
  total_trades : ℕ
  winning_trades : ℕ
  losing_trades : ℕ

/-- `BacktestEngine.run` of the top-level module (backtest_engine.py lines
273-312).  The local `trades` list of line 283 is never appended to, so the
trade statistics block (lines 300-306) is guarded by `trades.length > 0`
exactly as in the source; the strategy state (`position`, `avg_price`,
`risk_off_until`) is never mutated by `step`, so it is threaded as fixed
parameters. -/
noncomputable def BacktestEngine_run (initial_capital : ℚ) (config : StrategyConfig)
    (risk_off_until : Option ℚ) (now : ℚ) (position avg_price : ℚ)
    (data : List MarketRow) : BacktestResult :=
  let pnls := data.map (fun row =>
    step_pnl position avg_price (generate_signal config risk_off_until now row)
      ((row.price).getD (1 / 2)))
  let trades : List SrcTrade := []
  let total_pnl := pnls.sum
  let winning := trades.filter (fun t => decide (t.pnl.getD 0 > 0))
  let losing := trades.filter (fun t => decide (t.pnl.getD 0 < 0))
  ⟨trades, pnls, total_pnl,
    (if initial_capital > 0 then total_pnl / initial_capital * 100 else 0),
    (if pnls.length > 0 then calculate_sharpe_ratio pnls 0 else 0),
    (if pnls.length > 0 then calculate_max_drawdown pnls else 0),
    (if trades.length > 0 then (winning.length : ℚ) / (trades.length : ℚ) else 0),
    (if trades.length > 0 then trades.length else 0),
    (if trades.length > 0 then winning.length else 0),
    (if trades.length > 0 then losing.length else 0)⟩

/-- C3: for every configuration, risk-off state, clock and market row, the
top-level `VolatilityMarketMakerStrategy.generate_signal` returns HOLD, and
consequently every `BacktestEngine.run` over this strategy records zero
executed trades. -/
theorem generate_signal_always_hold (config : StrategyConfig)
    (risk_off_until : Option ℚ) (now : ℚ) (row : MarketRow)
    (initial_capital position avg_price : ℚ) (data : List MarketRow) :
    generate_signal config risk_off_until now row = Signal.HOLD ∧
      (BacktestEngine_run initial_capital config risk_off_until now position
          avg_price data).trades = [] ∧
      (BacktestEngine_run initial_capital config risk_off_until now position
          avg_price data).total_trades = 0 := by
  refine ⟨?_, ?_, ?_⟩
  · simp [generate_signal]
  · simp [BacktestEngine_run]
  · simp [BacktestEngine_run]

/-- A `Trade` record of the tests-module engine (tests/backtest_engine.py
lines 23-30). -/
structure TestsTrade where
  timestamp : Option ℚ := none
  action : String := ""
  size : ℚ := 0
  price : ℚ := 0
  pnl : Option ℚ := none
deriving DecidableEq

/-- The mutable strategy state of the tests-module
`VolatilityMarketMakerStrategy` (tests/backtest_engine.py lines 48-59). -/
structure TestsStrategyState where
  position : ℚ := 0
  avg_price : ℚ := 0
  cash : ℚ := 10000
  trades : List TestsTrade := []
deriving DecidableEq

/-- `VolatilityMarketMakerStrategy.generate_signal` of the tests module
(tests/backtest_engine.py lines 65-89): HOLD above the volatility
threshold, BUY below price 0.45 under the position cap, SELL above price
0.55 with a positive position, else HOLD. -/
def tests_generate_signal (config : StrategyConfig) (position : ℚ)
    (row : MarketRow) : Signal :=
  let price := (row.price).getD (1 / 2)
  let volatility := (row.vol_3_hour).getD 0
  if volatility > (config.volatility_threshold).getD (15 / 100) then Signal.HOLD
  else if price < 45 / 100 ∧ position < (config.max_position_size).getD 250 then Signal.BUY
  else if price > 55 / 100 ∧ position > 0 then Signal.SELL
  else Signal.HOLD

/-- `VolatilityMarketMakerStrategy.execute_signal` of the tests module
(tests/backtest_engine.py lines 91-135): BUY blends the average price and
raises the position unless the cap would be exceeded; SELL books
`trade_size * (price - avg_price)` and reduces the position unless the
position is smaller than the trade size. -/
def tests_execute_signal (config : StrategyConfig) (s : TestsStrategyState)
    (sig : Signal) (row : MarketRow) : Option TestsTrade × TestsStrategyState :=
  let ts := row.timestamp
  let price := (row.price).getD (1 / 2)
  let trade_size := (config.trade_size).getD 50
  match sig with
  | Signal.BUY =>
    if s.position + trade_size > (config.max_position_size).getD 250 then (none, s)
    else
      let total_cost := s.position * s.avg_price + trade_size * price
      let position := s.position + trade_size
      let avg_price := if position > 0 then total_cost / position else 0
      let trade : TestsTrade := ⟨ts, "BUY", trade_size, price, none⟩
      (some trade, ⟨position, avg_price, s.cash, s.trades ++ [trade]⟩)
  | Signal.SELL =>
    if s.position < trade_size then (none, s)
    else
      let pnl := trade_size * (price - s.avg_price)
      let trade : TestsTrade := ⟨ts, "SELL", trade_size, price, some pnl⟩
      (some trade, ⟨s.position - trade_size, s.avg_price,
        s.cash + trade_size * price, s.trades ++ [trade]⟩)
  | Signal.HOLD => (none, s)

/-- `BacktestEngine.calculate_current_pnl` of the tests module
(tests/backtest_engine.py lines 232-247): realized PnL over the engine's
recorded trades plus mark-to-market PnL of the open position. -/
def tests_calculate_current_pnl (engineTrades : List TestsTrade)
    (s : TestsStrategyState) (current_price : ℚ) : ℚ :=
  (engineTrades.filterMap (fun t => t.pnl)).sum +
    (s.position * current_price - s.position * s.avg_price)

/-- The engine state threaded through `BacktestEngine.step` of the tests
module: strategy state, the engine's own trade list and the PnL history. -/
structure TestsEngineState where
  strat : TestsStrategyState
  engineTrades : List TestsTrade
  pnl_history : List ℚ
deriving DecidableEq

/-- `BacktestEngine.step` of the tests module (tests/backtest_engine.py
lines 160-188).  Note the source order: the signal is executed (mutating
the strategy) BEFORE `calculate_current_pnl` reads the engine's trade
list, and the new trade is appended to the engine's list only afterwards,
so the just-booked SELL PnL is not yet in the realized sum at this step. -/
def tests_step (config : StrategyConfig) (st : TestsEngineState)
    (row : MarketRow) : TestsEngineState :=
  let sig := tests_generate_signal config st.strat.position row
  let res := tests_execute_signal config st.strat sig row
  let current := tests_calculate_current_pnl st.engineTrades res.2 ((row.price).getD (1 / 2))
  let engineTrades := match res.1 with
    | none => st.engineTrades
    | some tr => st.engineTrades ++ [tr]
  ⟨res.2, engineTrades, st.pnl_history ++ [current]⟩

/-- `calculate_sharpe_ratio` of the tests module (tests/backtest_engine.py
lines 285-307): `(mean(returns) - rf) / std(returns) * sqrt(periods)`.
`none` models the NaN produced for a single observation (pandas `std` of
one value is NaN; `NaN == 0` is false, so the guard does not fire and the
division propagates NaN).  `std == 0` is modelled as zero sample
variance. -/
noncomputable def tests_calculate_sharpe_ratio (returns : List ℚ)
    (risk_free_rate : ℚ) (periods_per_year : ℕ) : Option ℝ :=
  if returns.length = 0 then some 0
  else if returns.length = 1 then none
  else if sampleVar returns = 0 then some 0
  else some (((listMean returns - risk_free_rate : ℚ) : ℝ) /
    Real.sqrt ((sampleVar returns : ℚ) : ℝ) * Real.sqrt (periods_per_year : ℝ))

/-- `calculate_max_drawdown` of the tests module (tests/backtest_engine.py
lines 310-332): its input is already the cumulative PnL curve; the result
is `min(series - cummax(series))`, 0 for an empty series. -/
def tests_calculate_max_drawdown (pnl_series : List ℚ) : ℚ :=
  if pnl_series = [] then 0
  else listMin (List.zipWith (fun x m => x - m) pnl_series (runningMax pnl_series))

/-- `calculate_win_rate` of the tests module (tests/backtest_engine.py
lines 335-352): winners among completed (non-None PnL) trades. -/
def tests_calculate_win_rate (trades : List TestsTrade) : ℚ :=
  let completed := trades.filter (fun t => t.pnl.isSome)
  if completed = [] then 0
  else ((completed.filter (fun t => decide (t.pnl.getD 0 > 0))).length : ℚ) /
    (completed.length : ℚ)

/-- The statistics dictionary of `BacktestEngine.calculate_statistics`
(tests/backtest_engine.py lines 249-282). -/
structure TestsStatistics where
  sharpe_ratio : Option ℝ
  max_drawdown : ℚ
  win_rate : ℚ

/-- `BacktestEngine.calculate_statistics` of the tests module
(tests/backtest_engine.py lines 249-282): returns are the first
differences of the PnL series; the sharpe call is guarded by
`len(returns) > 1`. -/
noncomputable def tests_calculate_statistics (trades : List TestsTrade)
    (pnl_series : List ℚ) : TestsStatistics :=
  if pnl_series = [] then ⟨some 0, 0, 0⟩
  else
    let returns := diffs pnl_series
    ⟨(if returns.length > 1 then tests_calculate_sharpe_ratio returns 0 252 else some 0),
      tests_calculate_max_drawdown pnl_series,
      tests_calculate_win_rate trades⟩

/-- `BacktestResult` of the tests module (tests/backtest_engine.py lines
33-42), without the start/end dates (not touched by any claim). -/
structure TestsBacktestResult where
  trades : List TestsTrade
  pnl_series : List ℚ
  statistics : TestsStatistics
  total_pnl : ℚ
  trade_count : ℕ

/-- `BacktestEngine.run` of the tests module (tests/backtest_engine.py
lines 190-230): an empty table raises `ValueError("Empty market data")`, a
table with fewer than 10 rows raises `ValueError("Insufficient data")`,
otherwise the engine folds `step` over the rows and assembles the result. -/
noncomputable def tests_run (config : StrategyConfig) (s0 : TestsStrategyState)
    (data : List MarketRow) : Except String TestsBacktestResult :=
  if data.length = 0 then Except.error "Empty market data"
  else if data.length < 10 then Except.error "Insufficient data"
  else
    let final := data.foldl (tests_step config) ⟨s0, [], []⟩
    let total_pnl := (final.engineTrades.filterMap (fun t => t.pnl)).sum
    Except.ok ⟨final.engineTrades, final.pnl_history,
      tests_calculate_statistics final.engineTrades final.pnl_history,
      total_pnl, final.engineTrades.length⟩

/-- C2 counterexample: the top-level `BacktestEngine.run` performs no input
validation: on an EMPTY trade table it raises nothing and produces a
(default-valued) `BacktestResult`, contradicting the claimed
`ValidationError`. -/
theorem BacktestEngine_run_empty_counterexample :
    BacktestEngine_run 10000 ⟨none, none, none⟩ none 0 0 0 [] =
      ⟨[], [], 0, 0, 0, 0, 0, 0, 0, 0⟩ := by
  norm_num [BacktestEngine_run]

/-- C2 (amended): the tests-module `BacktestEngine.run` raises
`ValueError("Empty market data")` on an empty table and
`ValueError("Insufficient data")` on a non-empty table with fewer than 10
rows, producing no result in either case; the top-level engine instead
returns a `BacktestResult` without validation. -/
theorem tests_run_validates (config : StrategyConfig) (s0 : TestsStrategyState)
    (data : List MarketRow) :
    (data = [] → tests_run config s0 data = Except.error "Empty market data") ∧
      (data ≠ [] → data.length < 10 →
        tests_run config s0 data = Except.error "Insufficient data") := by
  constructor
  · intro h
    subst h
    simp [tests_run]
  · intro h hl
    have h0 : data.length ≠ 0 := fun hc => h (List.length_eq_zero.mp hc)
    rw [tests_run, if_neg h0, if_pos hl]

/-- Witness for the amended C2 on a concrete 1-row table. -/
theorem tests_run_validates_witness :
    ([⟨none, none, none⟩] : List MarketRow) ≠ [] ∧
      ([⟨none, none, none⟩] : List MarketRow).length < 10 ∧
      tests_run ⟨none, none, none⟩ ⟨0, 0, 10000, []⟩ [⟨none, none, none⟩] =
        Except.error "Insufficient data" :=
  ⟨by simp, by simp,
    (tests_run_validates ⟨none, none, none⟩ ⟨0, 0, 10000, []⟩ [⟨none, none, none⟩]).2
      (by simp) (by simp)⟩

/-- C6 counterexample: for the return series [1, 2, 3] (mean 2, sample std
1) the top-level `calculate_sharpe_ratio` yields 2, not the claimed
annualised `mean/std * sqrt(periods_per_year)` = 2·√252. -/
theorem calculate_sharpe_ratio_counterexample :
    calculate_sharpe_ratio [1, 2, 3] 0 = 2 ∧ (2 : ℝ) ≠ 2 * Real.sqrt 252 := by
  have hvar : sampleVar [1, 2, 3] = 1 := by norm_num [sampleVar, listMean]
  have hmean : listMean [1, 2, 3] = 2 := by norm_num [listMean]
  constructor
  · rw [calculate_sharpe_ratio, if_neg (by norm_num), if_neg (by rw [hvar]; norm_num),
      hvar, hmean]
    norm_num
  · intro h
    have h1 : (1 : ℝ) < Real.sqrt 252 := by
      calc (1 : ℝ) = Real.sqrt 1 := Real.sqrt_one.symm
      _ < Real.sqrt 252 := Real.sqrt_lt_sqrt (by norm_num) (by norm_num)
    nlinarith

/-- C6 (amended): in the tests-module pipeline the Sharpe ratio of the
per-step return series (first differences of the PnL curve) equals
`mean/std * sqrt(252)` for at least 2 observations with nonzero variance
and is exactly 0 for fewer than 2 observations or zero variance; the
top-level `calculate_sharpe_ratio` has the same degenerate cases but
returns the UN-annualised `mean/std`. -/
theorem sharpe_ratio_amended (trades : List TestsTrade) (pnl_series : List ℚ) :
    ((diffs pnl_series).length < 2 ∨ sampleVar (diffs pnl_series) = 0 →
      (tests_calculate_statistics trades pnl_series).sharpe_ratio = some 0) ∧
      (2 ≤ (diffs pnl_series).length → sampleVar (diffs pnl_series) ≠ 0 →
        (tests_calculate_statistics trades pnl_series).sharpe_ratio =
          some ((listMean (diffs pnl_series) : ℝ) /
            Real.sqrt ((sampleVar (diffs pnl_series) : ℚ) : ℝ) * Real.sqrt 252)) ∧
      (∀ returns : List ℚ,
        (returns.length < 2 ∨ sampleVar returns = 0 →
          calculate_sharpe_ratio returns 0 = 0) ∧
        (2 ≤ returns.length → sampleVar returns ≠ 0 →
          calculate_sharpe_ratio returns 0 =
            (listMean returns : ℝ) / Real.sqrt ((sampleVar returns : ℚ) : ℝ))) := by
  refine ⟨?_, ?_, ?_⟩
  · intro h
    by_cases hp : pnl_series = []
    · simp [tests_calculate_statistics, hp]
    · rcases h with h | h
      · have : ¬ ((diffs pnl_series).length > 1) := by omega
        simp [tests_calculate_statistics, hp, this]
      · by_cases hl : (diffs pnl_series).length > 1
        · have h0 : (diffs pnl_series).length ≠ 0 := by omega
          have h1 : (diffs pnl_series).length ≠ 1 := by omega
          simp [tests_calculate_statistics, hp, hl, tests_calculate_sharpe_ratio, h0, h1, h]
        · simp [tests_calculate_statistics, hp, hl]
  · intro h2 hv
    have hp : pnl_series ≠ [] := by
      intro hc
      rw [hc] at h2
      simp [diffs] at h2
    have hl : (diffs pnl_series).length > 1 := by omega
    have h0 : (diffs pnl_series).length ≠ 0 := by omega
    have h1 : (diffs pnl_series).length ≠ 1 := by omega
    simp only [tests_calculate_statistics, if_neg hp, if_pos hl,
      tests_calculate_sharpe_ratio, if_neg h0, if_neg h1, if_neg hv]
    norm_num
  · intro returns
    constructor
    · rintro (h | h)
      · simp [calculate_sharpe_ratio, h]
      · by_cases hl : returns.length < 2
        · simp [calculate_sharpe_ratio, hl]
        · simp [calculate_sharpe_ratio, hl, h]
    · intro h2 hv
      have hl : ¬ (returns.length < 2) := by omega
      simp [calculate_sharpe_ratio, hl, hv]

/-- Witness for the amended C6 on the PnL curve [0, 1, 3, 6]
(returns [1, 2, 3]). -/
theorem sharpe_ratio_amended_witness :
    2 ≤ (diffs [0, 1, 3, 6]).length ∧ sampleVar (diffs [0, 1, 3, 6]) ≠ 0 ∧
      (tests_calculate_statistics [] [0, 1, 3, 6]).sharpe_ratio =
        some ((listMean (diffs [0, 1, 3, 6]) : ℝ) /
          Real.sqrt ((sampleVar (diffs [0, 1, 3, 6]) : ℚ) : ℝ) * Real.sqrt 252) :=
  ⟨by norm_num [diffs], by norm_num [diffs, sampleVar, listMean],
    ((sharpe_ratio_amended [] [0, 1, 3, 6]).2).1 (by norm_num [diffs])
      (by norm_num [diffs, sampleVar, listMean])⟩

theorem runningMaxAux_length (m : ℚ) (xs : List ℚ) :
    (runningMaxAux m xs).length = xs.length := by
  induction xs generalizing m with
  | nil => simp [runningMaxAux]
  | cons x r ih => simp [runningMaxAux, ih]

theorem runningMax_length (xs : List ℚ) : (runningMax xs).length = xs.length := by
  cases xs with
  | nil => simp [runningMax]
  | cons x r => simp [runningMax, runningMaxAux_length]

theorem runningMaxAux_getD (m : ℚ) (xs : List ℚ) (i : ℕ) (h : i < xs.length) :
    (runningMaxAux m xs).getD i 0 = (xs.take (i + 1)).foldl max m := by
  induction xs generalizing m i with
  | nil => simp at h
  | cons x r ih =>
    cases i with
    | zero => simp [runningMaxAux]
    | succ i =>
      simp only [runningMaxAux, List.getD_cons_succ, List.take_succ_cons, List.foldl_cons]
      exact ih (max m x) i (by simpa using h)

/-- The running maximum at index `i` is the maximum of the first `i + 1`
entries. -/
theorem runningMax_getD (xs : List ℚ) (i : ℕ) (h : i < xs.length) :
    (runningMax xs).getD i 0 = listMax (xs.take (i + 1)) := by
  cases xs with
  | nil => simp at h
  | cons x r =>
    cases i with
    | zero => simp [runningMax, listMax]
    | succ i =>
      simp only [runningMax, List.getD_cons_succ, List.take_succ_cons, listMax]
      exact runningMaxAux_getD x r i (by simpa using h)

theorem zipWith_eq_map_range (f : ℚ → ℚ → ℚ) (xs ys : List ℚ)
    (h : xs.length = ys.length) :
    List.zipWith f xs ys =
      (List.range xs.length).map (fun i => f (xs.getD i 0) (ys.getD i 0)) := by
  induction xs generalizing ys with
  | nil => simp
  | cons x r ih =>
    cases ys with
    | nil => simp at h
    | cons y s =>
      simp only [List.zipWith_cons_cons, List.length_cons, List.range_succ_eq_map,
        List.map_cons, List.map_map]
      congr 1
      rw [ih s (by simpa using h)]
      rfl

/-- The claim's drawdown formula, stated the way the spec words it:
`min over i of (series[i] - max(series[0..i]))`, 0 for an empty curve. -/
def spec_max_drawdown (xs : List ℚ) : ℚ :=
  if xs = [] then 0
  else listMin ((List.range xs.length).map
    (fun i => xs.getD i 0 - listMax (xs.take (i + 1))))

/-- C7 (amended): the TESTS-module `calculate_max_drawdown` computes
exactly the claimed formula `min(cum[i] - running_max(cum)[0..i])` over its
input curve (0 if empty) and yields -10 on the curve
[0,10,20,15,25,20,30,25,20,35]; the top-level `calculate_max_drawdown`
instead cumulative-sums its input and returns a percentage drawdown. -/
theorem max_drawdown_amended :
    (∀ xs : List ℚ, tests_calculate_max_drawdown xs = spec_max_drawdown xs) ∧
      tests_calculate_max_drawdown [0, 10, 20, 15, 25, 20, 30, 25, 20, 35] = -10 := by
  constructor
  · intro xs
    by_cases h : xs = []
    · simp [tests_calculate_max_drawdown, spec_max_drawdown, h]
    · rw [tests_calculate_max_drawdown, spec_max_drawdown, if_neg h, if_neg h]
      congr 1
      rw [zipWith_eq_map_range _ _ _ (runningMax_length xs).symm]
      apply List.map_congr_left
      intro i hi
      rw [runningMax_getD xs i (List.mem_range.mp hi)]
  · rw [tests_calculate_max_drawdown, if_neg (by simp)]
    norm_num [runningMax, runningMaxAux, listMin, min_def, max_def]

/-- C7 counterexample: feeding the per-step PnL whose cumulative curve is
[0,10,20,15,25,20,30,25,20,35] to the TOP-LEVEL `calculate_max_drawdown`
yields the percentage -100/3, not the claimed -10. -/
theorem calculate_max_drawdown_counterexample :
    calculate_max_drawdown [0, 10, 10, -5, 10, -5, 10, -5, -5, 15] = -100 / 3 ∧
      (-100 / 3 : ℚ) ≠ -10 := by
  constructor
  · rw [calculate_max_drawdown, if_neg (by simp)]
    norm_num [cumsum, cumsumAux, runningMax, runningMaxAux, listMin, min_def, max_def]
  · norm_num

/-- The cleaning step of `calculate_volatility` (volatility_calc.py lines
40-42): drop NaN entries, then keep strictly positive prices. -/
def cleanPrices (prices : List (Option ℚ)) : List ℚ :=
  (prices.filterMap id).filter (fun p => decide (0 < p))

/-- Log returns `ln(p[i] / p[i-1])` of a price list (volatility_calc.py
lines 47-49). -/
noncomputable def logReturns (xs : List ℚ) : List ℝ :=
  List.zipWith (fun prev cur => Real.log ((cur : ℝ) / (prev : ℝ))) xs xs.tail

/-- Mean of a list of reals. -/
noncomputable def rmean (xs : List ℝ) : ℝ := xs.sum / (xs.length : ℝ)

/-- Sample variance with `ddof = 1` over reals. -/
noncomputable def rsampleVar (xs : List ℝ) : ℝ :=
  (xs.map (fun x => (x - rmean xs) ^ 2)).sum / ((xs.length : ℝ) - 1)

/-- Pandas `Series.std(ddof=1)`: NaN (`none`) for fewer than 2 entries. -/
noncomputable def pandasStd (xs : List ℝ) : Option ℝ :=
  if xs.length < 2 then none else some (Real.sqrt (rsampleVar xs))

/-- The non-windowed `calculate_volatility` of the top-level module
(volatility_calc.py lines 15-55): errors only on raw length 0 or 1; after
cleaning, fewer than 2 valid prices yield `0.0` (NOT an error); an empty
log-return list yields `0.0`; otherwise the sample std of the log returns
(`none` models the NaN that pandas `std` returns for a single log
return). -/
noncomputable def calculate_volatility (prices : List (Option ℚ)) :
    Except String (Option ℝ) :=
  if prices.length = 0 then Except.error "Empty price series"
  else if prices.length < 2 then
    Except.error "Insufficient data points: need at least 2 prices"
  else
    let clean := cleanPrices prices
    if clean.length < 2 then Except.ok (some 0)
    else
      let log_returns := logReturns clean
      if log_returns.length = 0 then Except.ok (some 0)
      else Except.ok (pandasStd log_returns)

/-- C4 counterexample: the pair [1.0, -1.0] has only ONE valid price after
cleaning, yet `calculate_volatility` returns 0.0 instead of raising an
insufficient-data error. -/
theorem calculate_volatility_counterexample :
    calculate_volatility [some 1, some (-1)] = Except.ok (some 0) ∧
      (cleanPrices [some 1, some (-1)]).length < 2 := by
  constructor
  · have h : (cleanPrices [some 1, some (-1)]).length < 2 := by decide
    simp only [calculate_volatility]
    rw [if_neg (by simp), if_neg (by simp), if_pos h]
  · decide

/-- C4 (amended): `calculate_volatility` raises `ValueError` exactly when
the RAW sequence has fewer than 2 entries (before cleaning); when at least
2 raw entries are given but fewer than 2 valid prices remain after
dropping missing and non-positive entries, it returns 0.0 instead of
raising. -/
theorem calculate_volatility_amended (prices : List (Option ℚ)) :
    (prices.length < 2 → ∃ e, calculate_volatility prices = Except.error e) ∧
      (2 ≤ prices.length → (cleanPrices prices).length < 2 →
        calculate_volatility prices = Except.ok (some 0)) := by
  constructor
  · intro h
    by_cases h0 : prices.length = 0
    · exact ⟨"Empty price series", by rw [calculate_volatility, if_pos h0]⟩
    · exact ⟨"Insufficient data points: need at least 2 prices",
        by rw [calculate_volatility, if_neg h0, if_pos h]⟩
  · intro h2 hc
    rw [calculate_volatility, if_neg (by omega), if_neg (by omega), if_pos hc]

/-- Witness for the amended C4 at [1.0, NaN]. -/
theorem calculate_volatility_amended_witness :
    2 ≤ ([some 1, none] : List (Option ℚ)).length ∧
      (cleanPrices [some 1, none]).length < 2 ∧
      calculate_volatility [some 1, none] = Except.ok (some 0) :=
  ⟨by simp, by decide,
    (calculate_volatility_amended [some 1, none]).2 (by simp) (by decide)⟩

/-- The `RiskLevel` enum (risk_management.py lines 12-17): a plain Python
`Enum` (not `IntEnum`), so its members carry NO order relation. -/
inductive RiskLevel
  | LOW
  | MEDIUM
  | HIGH
  | CRITICAL
deriving DecidableEq

/-- The `risk_context` dictionary read by `comprehensive_risk_check`
(risk_management.py lines 335-351); `none` models a missing key. -/
structure RiskContext where
  pnl : Option ℚ := none
  spread : Option ℚ := none
  volatility_3h : Option ℚ := none
  position_size : Option ℚ := none
  max_position : Option ℚ := none
  in_risk_off_period : Option Bool := none
  stop_loss_threshold : Option ℚ := none
  spread_threshold : Option ℚ := none
  volatility_threshold : Option ℚ := none
deriving DecidableEq

/-- The result dictionary of `comprehensive_risk_check`
(risk_management.py lines 342-347). -/
structure RiskCheckResult where
  can_trade : Bool
  risk_level : RiskLevel
  warnings : List String
  should_stop_loss : Bool
deriving DecidableEq

/-- Python `max` applied to two members of the plain-`Enum` `RiskLevel`
(risk_management.py line 382): `Enum` defines no `<`/`>`, so the
comparison inside `max` raises `TypeError` for every pair of members. -/
def riskLevelPyMax (_a _b : RiskLevel) : Except String RiskLevel :=
  Except.error "TypeError: RiskLevel is not orderable"

/-- `comprehensive_risk_check` (risk_management.py lines 313-385), in
source order: (1) stop-loss early-returns CRITICAL/blocked; (2) the
volatility block sets CRITICAL at 1.5x threshold or HIGH at threshold;
(3) the risk-off block OVERWRITES the level with HIGH and blocks; (4) the
position block OVERWRITES the level with MEDIUM and blocks at the cap, and
at 90% of the cap calls `max` on the unorderable enum, raising
`TypeError`. -/
def comprehensive_risk_check (ctx : RiskContext) : Except String RiskCheckResult :=
  let pnl := ctx.pnl.getD 0
  let spread := ctx.spread.getD 0
  let volatility := ctx.volatility_3h.getD 0
  let position_size := ctx.position_size.getD 0
  let max_position := ctx.max_position.getD 250
  let in_risk_off := ctx.in_risk_off_period.getD false
  let stop_loss_threshold := ctx.stop_loss_threshold.getD (-5)
  let spread_threshold := ctx.spread_threshold.getD (2 / 100)
  if pnl ≤ stop_loss_threshold ∧ spread ≤ spread_threshold then
    Except.ok ⟨false, RiskLevel.CRITICAL, ["Stop loss triggered"], true⟩
  else
    let volatility_threshold := ctx.volatility_threshold.getD (15 / 100)
    let volState : RiskLevel × List String :=
      if volatility ≥ volatility_threshold * (3 / 2) then
        (RiskLevel.CRITICAL, ["Extreme volatility"])
      else if volatility ≥ volatility_threshold then
        (RiskLevel.HIGH, ["High volatility"])
      else (RiskLevel.LOW, [])
    let afterRiskOff : Bool × RiskLevel × List String :=
      if in_risk_off then (false, RiskLevel.HIGH, volState.2 ++ ["In risk-off period"])
      else (true, volState.1, volState.2)
    if |position_size| ≥ max_position then
      Except.ok ⟨false, RiskLevel.MEDIUM, afterRiskOff.2.2 ++ ["Max position reached"],
        false⟩
    else if |position_size| ≥ max_position * (9 / 10) then
      match riskLevelPyMax afterRiskOff.2.1 RiskLevel.MEDIUM with
      | Except.error e => Except.error e
      | Except.ok lvl =>
        Except.ok ⟨afterRiskOff.1, lvl, afterRiskOff.2.2 ++ ["Near max position"], false⟩
    else Except.ok ⟨afterRiskOff.1, afterRiskOff.2.1, afterRiskOff.2.2, false⟩

/-- C5 counterexample: with no stop-loss, zero volatility, risk-off ACTIVE
and the position AT the cap, the source returns risk level MEDIUM — the
lower-precedence position-limit branch overwrites the HIGH level that the
risk-off condition had assigned, contradicting the claimed precedence. -/
theorem comprehensive_risk_check_counterexample :
    comprehensive_risk_check ⟨some 0, some 0, some 0, some 250, some 250, some true,
        none, none, none⟩ =
      Except.ok ⟨false, RiskLevel.MEDIUM, ["In risk-off period", "Max position reached"],
        false⟩ ∧
      RiskLevel.MEDIUM ≠ RiskLevel.HIGH := by
  constructor
  · have habs : |(250 : ℚ)| = 250 := abs_of_nonneg (by norm_num)
    simp only [comprehensive_risk_check, Option.getD_some, Option.getD_none]
    rw [if_neg (by norm_num), if_pos (by rw [habs])]
    norm_num
  · decide

/-- C5 (amended): `comprehensive_risk_check` evaluates, in source order:
stop-loss (early return, CRITICAL, blocks); then volatility (CRITICAL at
1.5x threshold, HIGH at threshold, never blocks); then risk-off
(OVERWRITES the level with HIGH, blocks); then position limit: at the cap
it OVERWRITES the level with MEDIUM and blocks, and at 90% of the cap it
raises `TypeError` (Python `max` over the unorderable `RiskLevel` enum).
A level set by an earlier condition IS replaced by the later risk-off and
position-limit assignments. -/
theorem comprehensive_risk_check_amended (ctx : RiskContext) :
    (ctx.pnl.getD 0 ≤ ctx.stop_loss_threshold.getD (-5) ∧
        ctx.spread.getD 0 ≤ ctx.spread_threshold.getD (2 / 100) →
      comprehensive_risk_check ctx =
        Except.ok ⟨false, RiskLevel.CRITICAL, ["Stop loss triggered"], true⟩) ∧
      (¬ (ctx.pnl.getD 0 ≤ ctx.stop_loss_threshold.getD (-5) ∧
          ctx.spread.getD 0 ≤ ctx.spread_threshold.getD (2 / 100)) →
        (|ctx.position_size.getD 0| ≥ ctx.max_position.getD 250 →
          ∃ r, comprehensive_risk_check ctx = Except.ok r ∧ r.can_trade = false ∧
            r.risk_level = RiskLevel.MEDIUM) ∧
        (¬ |ctx.position_size.getD 0| ≥ ctx.max_position.getD 250 →
          |ctx.position_size.getD 0| ≥ ctx.max_position.getD 250 * (9 / 10) →
          comprehensive_risk_check ctx =
            Except.error "TypeError: RiskLevel is not orderable") ∧
        (¬ |ctx.position_size.getD 0| ≥ ctx.max_position.getD 250 * (9 / 10) →
          ctx.in_risk_off_period.getD false = true →
          ∃ r, comprehensive_risk_check ctx = Except.ok r ∧ r.can_trade = false ∧
            r.risk_level = RiskLevel.HIGH) ∧
        (¬ |ctx.position_size.getD 0| ≥ ctx.max_position.getD 250 * (9 / 10) →
          ctx.in_risk_off_period.getD false = false →
          ∃ r, comprehensive_risk_check ctx = Except.ok r ∧ r.can_trade = true ∧
            r.risk_level =
              (if ctx.volatility_3h.getD 0 ≥
                  ctx.volatility_threshold.getD (15 / 100) * (3 / 2) then
                RiskLevel.CRITICAL
              else if ctx.volatility_3h.getD 0 ≥
                  ctx.volatility_threshold.getD (15 / 100) then RiskLevel.HIGH
              else RiskLevel.LOW))) := by
  constructor
  · intro h
    simp only [comprehensive_risk_check, Option.getD_some, Option.getD_none]
    rw [if_pos h]
  · intro hsl
    have hnn : (0 : ℚ) ≤ |ctx.position_size.getD 0| := abs_nonneg _
    refine ⟨?_, ?_, ?_, ?_⟩
    · intro hmax
      simp only [comprehensive_risk_check, Option.getD_some, Option.getD_none]
      rw [if_neg hsl, if_pos hmax]
      exact ⟨_, rfl, rfl, rfl⟩
    · intro hnmax hnear
      simp only [comprehensive_risk_check, Option.getD_some, Option.getD_none]
      rw [if_neg hsl, if_neg hnmax, if_pos hnear]
      simp [riskLevelPyMax]
    · intro hnnear hro
      have hnmax : ¬ |ctx.position_size.getD 0| ≥ ctx.max_position.getD 250 := by
        intro hc
        push_neg at hnnear
        nlinarith
      simp only [comprehensive_risk_check, Option.getD_some, Option.getD_none]
      rw [if_neg hsl, if_neg hnmax, if_neg hnnear, hro]
      exact ⟨_, rfl, rfl, rfl⟩
    · intro hnnear hro
      have hnmax : ¬ |ctx.position_size.getD 0| ≥ ctx.max_position.getD 250 := by
        intro hc
        push_neg at hnnear
        nlinarith
      simp only [comprehensive_risk_check, Option.getD_some, Option.getD_none]
      rw [if_neg hsl, if_neg hnmax, if_neg hnnear, hro]
      refine ⟨_, rfl, rfl, ?_⟩
      by_cases h1 : ctx.volatility_3h.getD 0 ≥
          ctx.volatility_threshold.getD (15 / 100) * (3 / 2)
      · simp [h1]
      · by_cases h2 : ctx.volatility_3h.getD 0 ≥ ctx.volatility_threshold.getD (15 / 100)
        · simp [h1, h2]
        · simp [h1, h2]

/-- Witness for the amended C5: the all-defaults context takes the final
(no stop-loss, no position breach, no risk-off) branch with level LOW. -/
theorem comprehensive_risk_check_amended_witness :
    ∃ r, comprehensive_risk_check ⟨none, none, none, none, none, none, none, none, none⟩ =
        Except.ok r ∧ r.can_trade = true ∧ r.risk_level = RiskLevel.LOW := by
  have h := ((comprehensive_risk_check_amended
      ⟨none, none, none, none, none, none, none, none, none⟩).2 (by norm_num)).2.2.2
    (by norm_num) (by simp)
  obtain ⟨r, h1, h2, h3⟩ := h
  refine ⟨r, h1, h2, ?_⟩
  rw [h3]
  norm_num

/-- C9: at 96% of the position cap (240 of 250) with no stop-loss, the
near-max branch of `comprehensive_risk_check` calls `max` on two members
of the plain-Enum `RiskLevel`, which Python rejects with `TypeError` — the
function raises instead of returning a result dictionary. -/
theorem comprehensive_risk_check_typeerror :
    comprehensive_risk_check ⟨none, none, none, some 240, some 250, none, none, none,
        none⟩ =
      Except.error "TypeError: RiskLevel is not orderable" := by
  have habs : |(240 : ℚ)| = 240 := abs_of_nonneg (by norm_num)
  simp only [comprehensive_risk_check, Option.getD_some, Option.getD_none]
  rw [if_neg (by norm_num), if_neg (by rw [habs]; norm_num), if_pos (by rw [habs]; norm_num)]
  simp [riskLevelPyMax]

/-- One market row of the markets metadata table, reduced to the fields
`get_market_trades` consumes: the JSON-decoded `clob_token_ids`. -/
structure MarketInfo where
  clob_token_ids : List String

/-- The markets metadata table (`markets_0_10000.parquet` /
`markets.parquet` cache): whether a `condition_id` column exists, the
column itself in row order (for the index sampling loop), and row lookup
by `condition_id`.  `pd.DataFrame()` is the empty table with no columns. -/
structure MarketsDf where
  hasConditionIdCol : Bool
  conditionIds : List String
  findMarket : String → Option MarketInfo

/-- The empty `pd.DataFrame()` returned when the markets file is missing
(market_data_loader.py lines 106-108): no columns, no rows. -/
def emptyMarketsDf : MarketsDf := ⟨false, [], fun _ => none⟩

/-- One row of a trades partition file. -/
structure TradeRow where
  block_number : ℕ
  taker_asset_id : String
  maker_asset_id : String
deriving DecidableEq

/-- One `trades_{start}_{end}.parquet` partition file. -/
structure TradesFile where
  start_block : ℕ
  end_block : ℕ
  rows : List TradeRow
deriving DecidableEq

/-- The file-system and cache state visible to a `MarketDataLoader`:
`none` models a missing/unreachable file or directory.  `tradesDir` is the
SMB trades directory (already name-parsed and block-sorted, as
`_scan_trades_files` produces it); `tradesCache` is the per-market
materialized parquet cache keyed by market id. -/
structure LoaderState where
  marketsFile : Option MarketsDf
  marketsCache : Option MarketsDf
  tradesDir : Option (List TradesFile)
  indexCache : Option (List (String × List (ℕ × ℕ)))
  tradesCache : String → Option (List TradeRow)
  use_cache : Bool

/-- `MarketDataLoader._load_markets` (market_data_loader.py lines 84-118):
local cache if enabled and present, else the SMB file, else the empty
DataFrame (with a logged warning). -/
def load_markets (L : LoaderState) : MarketsDf :=
  match (if L.use_cache then L.marketsCache else none) with
  | some df => df
  | none =>
    match L.marketsFile with
    | some df => df
    | none => emptyMarketsDf

/-- `MarketDataLoader.get_market_info` (market_data_loader.py lines
120-150): `None` when the table has no `condition_id` column or no row
matches; the JSON decoding of the matched row is absorbed into
`MarketInfo`. -/
def get_market_info (L : LoaderState) (market_id : String) : Option MarketInfo :=
  let df := load_markets L
  if df.hasConditionIdCol then df.findMarket market_id else none

/-- `MarketDataLoader._get_token_ids_for_market` (market_data_loader.py
lines 152-169): `[]` when the market is unknown. -/
def get_token_ids_for_market (L : LoaderState) (market_id : String) : List String :=
  match get_market_info L market_id with
  | none => []
  | some info => info.clob_token_ids

/-- `MarketDataLoader._scan_trades_files` (market_data_loader.py lines
171-203): `[]` when the trades directory does not exist; otherwise the
name-parsed, block-sorted partition list. -/
def scan_trades_files (L : LoaderState) : List TradesFile :=
  match L.tradesDir with
  | none => []
  | some files => files

/-- `MarketDataLoader._build_market_index` (market_data_loader.py lines
205-281): cached index if enabled and present; `{}` when no trades files
exist; otherwise, for each of the first 100 markets with nonempty token
ids, the block ranges of the first 20 partition files whose
`taker_asset_id` column intersects the market's token ids. -/
def build_market_index (L : LoaderState) : List (String × List (ℕ × ℕ)) :=
  match (if L.use_cache then L.indexCache else none) with
  | some idx => idx
  | none =>
    let markets := load_markets L
    let trades_files := scan_trades_files L
    if trades_files = [] then []
    else
      (markets.conditionIds.take 100).filterMap (fun market_id =>
        let token_ids := get_token_ids_for_market L market_id
        if token_ids = [] then none
        else
          let relevant := (trades_files.take 20).filter (fun f =>
            token_ids.any (fun tid => (f.rows.map (fun r => r.taker_asset_id)).contains tid))
          if relevant = [] then none
          else some (market_id, relevant.map (fun f => (f.start_block, f.end_block))))

/-- Python `index.get(market_id, [])` over the pickled index dictionary. -/
def lookup_index (idx : List (String × List (ℕ × ℕ))) (market_id : String) :
    List (ℕ × ℕ) :=
  match idx.find? (fun p => p.1 == market_id) with
  | none => []
  | some p => p.2

/-- Existence check plus read of `trades_{start}_{end}.parquet`
(market_data_loader.py lines 339-346): `none` when the directory or the
file is missing. -/
def find_trades_file (L : LoaderState) (s e : ℕ) : Option TradesFile :=
  match L.tradesDir with
  | none => none
  | some files => files.find? (fun f => f.start_block == s && f.end_block == e)

/-- `MarketDataLoader.get_market_trades` (market_data_loader.py lines
283-386), without the optional `start_time`/`end_time` filtering (the
claim quantifies over market identifiers only): cache hit returns the
materialized cache; unknown token ids return an empty frame; otherwise the
indexed (or full-scan fallback) partition ranges are read, filtered on
either trade side, concatenated and sorted by block number.  Per-partition
read failures are skipped (`continue`), and an empty collection degrades
to an empty frame. -/
def get_market_trades (L : LoaderState) (market_id : String)
    (use_cache_arg : Bool) : List TradeRow :=
  match (if use_cache_arg ∧ L.use_cache then L.tradesCache market_id else none) with
  | some df => df
  | none =>
    let token_ids := get_token_ids_for_market L market_id
    if token_ids = [] then []
    else
      let index := build_market_index L
      let ranges0 := lookup_index index market_id
      let block_ranges :=
        if ranges0 = [] then
          (scan_trades_files L).map (fun f => (f.start_block, f.end_block))
        else ranges0
      let all_trades := block_ranges.filterMap (fun r =>
        match find_trades_file L r.1 r.2 with
        | none => none
        | some f =>
          let market_trades := f.rows.filter (fun row =>
            token_ids.contains row.taker_asset_id ||
              token_ids.contains row.maker_asset_id)
          if market_trades = [] then none else some market_trades)
      if all_trades = [] then []
      else (all_trades.flatten).mergeSort (fun a b => a.block_number ≤ b.block_number)

theorem filterMap_none_of_forall {α β : Type} (f : α → Option β) (l : List α)
    (h : ∀ a, f a = none) : l.filterMap f = [] := by
  induction l with
  | nil => rfl
  | cons x r ih => simp [List.filterMap_cons, h x, ih]

/-- C10: for every market identifier, when the backing trade-file source is
missing or unreachable (`tradesDir = none`) and no materialized cache entry
exists for the market, `get_market_trades` returns the empty result set —
and, being total in this model with every failure branch returning an
empty frame, it raises nothing. -/
theorem get_market_trades_degrades (L : LoaderState) (market_id : String)
    (use_cache_arg : Bool) (htr : L.tradesDir = none)
    (htc : L.tradesCache market_id = none) :
    get_market_trades L market_id use_cache_arg = [] := by
  have hmiss : (if use_cache_arg ∧ L.use_cache then L.tradesCache market_id else none) =
      none := by
    split
    · exact htc
    · rfl
  have hscan : scan_trades_files L = [] := by
    rw [scan_trades_files, htr]
  have hfind : ∀ r : ℕ × ℕ, find_trades_file L r.1 r.2 = none := by
    intro r
    rw [find_trades_file, htr]
  have hall : ∀ ranges : List (ℕ × ℕ),
      ranges.filterMap (fun r =>
        match find_trades_file L r.1 r.2 with
        | none => none
        | some f =>
          let market_trades := f.rows.filter (fun row =>
            (get_token_ids_for_market L market_id).contains row.taker_asset_id ||
              (get_token_ids_for_market L market_id).contains row.maker_asset_id)
          if market_trades = [] then none else some market_trades) = [] := by
    intro ranges
    apply filterMap_none_of_forall
    intro r
    rw [hfind r]
  simp only [get_market_trades, hmiss]
  by_cases htok : get_token_ids_for_market L market_id = []
  · rw [if_pos htok]
  · rw [if_neg htok, hall]
    rfl

/-- Witness for C10: a fresh loader whose SMB source is entirely absent
and whose caches are cold returns the empty result set. -/
theorem get_market_trades_degrades_witness :
    (⟨none, none, none, none, fun _ => none, true⟩ : LoaderState).tradesDir = none ∧
      (⟨none, none, none, none, fun _ => none, true⟩ : LoaderState).tradesCache
          "0xmarket" = none ∧
      get_market_trades ⟨none, none, none, none, fun _ => none, true⟩ "0xmarket" true =
        [] :=
  ⟨rfl, rfl,
    get_market_trades_degrades ⟨none, none, none, none, fun _ => none, true⟩ "0xmarket"
      true rfl rfl⟩
